import Mathlib

/-!
# Verification of the CFL fantasy roster optimizer

Shallow embedding of `src/optimizer/custom_cfl_optimizer.py` (the Roster
Solver, the Captain Search Controller, the Locked-Slot Partitioner and the
Result Assembler) and, for the frame claims, of the captain loop of
`src/optimizer/cfl_pydfs_optimizer.py`.

Conventions of the embedding:
* Python `int` is `Int`, Python `float` is `ℚ` (exact arithmetic stands in
  for IEEE floats; every concrete input used below has small integral
  values, where the two agree).
* The external branch-and-bound ILP backend (`pulp.PULP_CBC_CMD`) is not
  code of this repository; it is modelled by `ilpSolve`, an exhaustive
  search returning a feasible selection of maximal objective value (the
  contract of an exact ILP solver).  The constraint formulation, the
  objective and the result extraction are translated line by line from the
  source.
* A Python function that raises is modelled as returning `none`.
-/

/-- `CFLPlayer` dataclass of `custom_cfl_optimizer.py` (lines 17-30),
with the same field defaults.  It also stands for the per-option dict
built in `_generate_lineup_standard` (lines 449-476), whose keys are a
subset of these fields (the `type` key is never read by the solver). -/
structure CFLPlayer where
  id : String
  name : String
  position : String
  team : String
  salary : Int
  projected_points : ℚ
  ownership : ℚ := 0
  status : String := "available"
  is_captain : Bool := false
  is_locked : Bool := false
  is_current_lineup : Bool := false
deriving DecidableEq

/-- `CFLTeam` dataclass (lines 32-40): defense units. -/
structure CFLTeam where
  id : String
  name : String
  abbreviation : String
  salary : Int
  projected_points : ℚ
  ownership : ℚ := 0
deriving DecidableEq

/-- `CFLLineup` dataclass (lines 42-52). -/
structure CFLLineup where
  players : List CFLPlayer
  total_salary : Int
  projected_points : ℚ
  remaining_cap : Int
  salary_cap : Int
  is_valid : Bool
  captain_id : String := ""
  captain_bonus_points : ℚ := 0
deriving DecidableEq

/-- Mutable attributes of a `CustomCFLOptimizer` instance (lines 57-62)
that the solve paths read: the salary cap and the four pools. -/
structure OptState where
  salary_cap : Int := 70000
  players : List CFLPlayer
  teams : List CFLTeam
  locked_players : List CFLPlayer
  available_players : List CFLPlayer
deriving DecidableEq

/-- `self.flex_positions` (line 73). -/
def flexPositions : List String := ["WR", "RB", "TE"]

/-- `self.position_requirements` (lines 65-71), as an insertion-ordered
association list standing for the Python dict. -/
def positionRequirements : List (String × Nat) :=
  [("QB", 1), ("WR", 2), ("RB", 2), ("FLEX", 1), ("DEF", 1)]

/-- Sum of the salaries of a selection (`total_salary` accumulation,
lines 566/580). -/
def totalSalary (sel : List CFLPlayer) : Int :=
  (sel.map (·.salary)).sum

/-- Sum of the projected points of a selection (the ILP objective,
lines 498-501). -/
def totalPoints (sel : List CFLPlayer) : ℚ :=
  (sel.map (·.projected_points)).sum

/-- Number of selected options with the given position. -/
def countPos (sel : List CFLPlayer) (pos : String) : Nat :=
  sel.countP (fun o => o.position == pos)

/-- Rounding a rational to the nearest integer (halves up):
`⌊q + 1/2⌋ = ⌊(2·num + den) / (2·den)⌋`, written with floor division on
the numerator and denominator so that it evaluates by kernel
reduction. -/
def ratRound (q : ℚ) : ℤ := Int.fdiv (q.num * 2 + (q.den : Int)) ((q.den : Int) * 2)

/-- Python `round(x, 2)` on the lineup's point total (lines 587/636/791).
Modelled as exact rounding to centi-units, halves rounding up (Python's
round-half-even on binary floats differs only at exact half-cent ties,
which no claim depends on); every concrete value used in this
development is integral, where no rounding occurs at all. -/
def round2 (q : ℚ) : ℚ := (ratRound (q * 100) : ℚ) / 100

/-- The conjunction of the ILP constraints of
`_generate_lineup_standard` (lines 503-555) on a candidate selection:
salary cap, exactly 1 QB, exactly 1 DEF, exactly 5 flex (WR/RB/TE),
at least 2 WR, at least 2 RB, exactly 7 options in total, and at most
`m` options per team.  The source posts the team constraint for every
team occurring in the pool; on a subset of the pool this is equivalent
to the bound below, quantified over the selected options. -/
def isFeasible (cap : Int) (m : Nat) (sel : List CFLPlayer) : Bool :=
  decide (totalSalary sel ≤ cap)
  && (countPos sel "QB" == 1)
  && (countPos sel "DEF" == 1)
  && (sel.countP (fun o => flexPositions.contains o.position) == 5)
  && decide (2 ≤ countPos sel "WR")
  && decide (2 ≤ countPos sel "RB")
  && (sel.length == 7)
  && sel.all (fun o => sel.countP (fun o2 => o2.team == o.team) ≤ m)

/-- Keep the selection with the larger objective value, first one winning
ties — the selection rule of an exact maximizing solver. -/
def pickBestAux (s : List CFLPlayer) (rest : List (List CFLPlayer)) : List CFLPlayer :=
  rest.foldl (fun b s2 => if totalPoints b < totalPoints s2 then s2 else b) s

/-- Model of `prob.solve(pulp.PULP_CBC_CMD(msg=0))` (line 558) applied to
the binary program built over `pool` with feasibility predicate `p`:
an exhaustive scan of all 0/1 assignments (identified with sublists of
`pool`), returning a feasible assignment of maximal objective value, or
`none` when the program is infeasible (`prob.status != LpStatusOptimal`,
line 561, which the source turns into a raised exception). -/
def ilpSolveWith (p : List CFLPlayer → Bool) (pool : List CFLPlayer) :
    Option (List CFLPlayer) :=
  match pool.sublists.filter p with
  | [] => none
  | s :: rest => some (pickBestAux s rest)

/-- The standard solve over `pool` with the constraints of lines 503-555. -/
def ilpSolve (cap : Int) (m : Nat) (pool : List CFLPlayer) :
    Option (List CFLPlayer) :=
  ilpSolveWith (isFeasible cap m) pool

/-- Defense teams entering the candidate pool as DEF options
(lines 464-476). -/
def teamToOption (t : CFLTeam) : CFLPlayer :=
  { id := "DEF_" ++ t.id
    name := t.abbreviation ++ " Defense"
    position := "DEF"
    team := t.abbreviation
    salary := t.salary
    projected_points := t.projected_points
    ownership := t.ownership }

/-- `all_options` of `_generate_lineup_standard` (lines 446-476):
the players followed by the defense teams. -/
def allOptions (st : OptState) : List CFLPlayer :=
  st.players ++ st.teams.map teamToOption

/-- Re-creation of a `CFLPlayer` from a selected option dict
(lines 571-578): only the listed keys are copied, every other field
takes its dataclass default. -/
def extractPlayer (o : CFLPlayer) : CFLPlayer :=
  { id := o.id
    name := o.name
    position := o.position
    team := o.team
    salary := o.salary
    projected_points := o.projected_points
    ownership := o.ownership }

/-- The Result Assembler of the standard path (lines 583-593): totals,
remaining cap and the validity flag computed from a selection. -/
def mkLineup (cap : Int) (sel : List CFLPlayer) : CFLLineup :=
  let selectedPlayers := sel.map extractPlayer
  { players := selectedPlayers
    total_salary := totalSalary sel
    projected_points := round2 (totalPoints sel)
    remaining_cap := cap - totalSalary sel
    salary_cap := cap
    is_valid := decide (totalSalary sel ≤ cap) && (selectedPlayers.length == 7)
    captain_id := ""
    captain_bonus_points := 0 }

/-- `_generate_lineup_standard` (lines 442-599): build the option pool,
solve the ILP, extract and assemble; a non-optimal solver status raises,
i.e. yields `none`. -/
def generateLineupStandard (st : OptState) (m : Nat) : Option CFLLineup :=
  (ilpSolve st.salary_cap m (allOptions st)).map (mkLineup st.salary_cap)

/-- One `dict.get(k, 0) + 1` update of a Python counting dict, modelled on
an insertion-ordered association list. -/
def tallyInsert (d : List (String × Nat)) (k : String) : List (String × Nat) :=
  match d with
  | [] => [(k, 1)]
  | (k2, v) :: rest =>
      if k2 == k then (k2, v + 1) :: rest else (k2, v) :: tallyInsert rest k

/-- The counting dicts `locked_positions` / `locked_teams` built by the
loop of lines 612-622. -/
def tally (ks : List String) : List (String × Nat) :=
  ks.foldl tallyInsert []

/-- Python `d.get(k, 0)` on an association list. -/
def lookupD (d : List (String × Nat)) (k : String) : Nat :=
  ((d.find? (fun e => e.1 == k)).map (·.2)).getD 0

/-- `locked_positions` (lines 608, 617-619). -/
def lockedPositionTally (st : OptState) : List (String × Nat) :=
  tally (st.locked_players.map (·.position))

/-- `locked_teams` (lines 609, 621-622). -/
def lockedTeamTally (st : OptState) : List (String × Nat) :=
  tally (st.locked_players.map (·.team))

/-- `remaining_salary = self.salary_cap - locked_salary` (line 625). -/
def remainingSalary (st : OptState) : Int :=
  st.salary_cap - totalSalary st.locked_players

/-- `remaining_roster_spots = 7 - len(selected_players)` (line 626). -/
def remainingSpots (st : OptState) : Int :=
  7 - (st.locked_players.length : Int)

/-- `remaining_requirements` (lines 646-649): for each entry of
`position_requirements`, `max(0, needed - locked_positions.get(pos, 0))`;
truncated `Nat` subtraction is exactly `max(0, ·)` on these
non-negative integers. -/
def remainingRequirements (st : OptState) : List (String × Nat) :=
  positionRequirements.map
    (fun pr => (pr.1, pr.2 - lookupD (lockedPositionTally st) pr.1))

/-- `total_flex_needed` (line 653): the residual WR/RB/TE entries of
`remaining_requirements` (the dict has no TE key, so TE contributes 0)
plus the residual FLEX entry. -/
def totalFlexNeeded (st : OptState) : Nat :=
  (flexPositions.map (fun pos => lookupD (remainingRequirements st) pos)).sum
    + lookupD (remainingRequirements st) "FLEX"

/-- `remaining_allowed = max(0, max_players_from_team - already_used)`
(lines 753-754). -/
def remainingTeamAllowance (st : OptState) (m : Nat) (team : String) : Nat :=
  m - lookupD (lockedTeamTally st) team

/-- `available_options` of the residual solve (lines 655-687): the
available players whose id is not locked, followed — when a DEF slot is
still open — by the defense teams whose `DEF_`-prefixed id is not locked. -/
def residualPool (st : OptState) : List CFLPlayer :=
  let lockedIds := st.locked_players.map (·.id)
  (st.available_players.filter (fun p => !(lockedIds.contains p.id)))
    ++ (if 0 < lookupD (remainingRequirements st) "DEF" then
          (st.teams.filter
            (fun t => !(lockedIds.contains ("DEF_" ++ t.id)))).map teamToOption
        else [])

/-- The residual constraints posted in lines 706-760: residual budget,
exact residual roster size, exact residual count for every still-needed
non-FLEX requirement, the flex-total constraint with residual WR/RB
minima when flex slots remain, and the per-team residual allowances
(posted in the source for every team of the residual pool, equivalently
bounded here over the selected options). -/
def residualFeasible (st : OptState) (m : Nat) (sel : List CFLPlayer) : Bool :=
  decide (totalSalary sel ≤ remainingSalary st)
  && (((sel.length : Int)) == remainingSpots st)
  && (remainingRequirements st).all
      (fun pr => if 0 < pr.2 && pr.1 != "FLEX" then countPos sel pr.1 == pr.2 else true)
  && (if 0 < totalFlexNeeded st then
        (sel.countP (fun o => flexPositions.contains o.position) == totalFlexNeeded st)
        && (if lookupD (lockedPositionTally st) "WR" < 2 then
              decide (2 - lookupD (lockedPositionTally st) "WR" ≤ countPos sel "WR")
            else true)
        && (if lookupD (lockedPositionTally st) "RB" < 2 then
              decide (2 - lookupD (lockedPositionTally st) "RB" ≤ countPos sel "RB")
            else true)
      else true)
  && sel.all (fun o =>
      sel.countP (fun o2 => o2.team == o.team) ≤ remainingTeamAllowance st m o.team)

/-- `_generate_lineup_with_locked_players` (lines 601-803): start from the
locked players; when no roster spot remains, assemble them directly
(lines 631-643); otherwise solve the residual program over the non-locked
pool (raising, i.e. `none`, when that pool is empty or the residual
program is infeasible) and merge (lines 768-799). -/
def generateLineupWithLocked (st : OptState) (m : Nat) : Option CFLLineup :=
  let locked := st.locked_players
  let lockedSalary := totalSalary locked
  let lockedPoints := totalPoints locked
  if remainingSpots st ≤ 0 then
    some { players := locked
           total_salary := lockedSalary
           projected_points := round2 lockedPoints
           remaining_cap := remainingSalary st
           salary_cap := st.salary_cap
           is_valid := decide (lockedSalary ≤ st.salary_cap) && (locked.length == 7)
           captain_id := ""
           captain_bonus_points := 0 }
  else if (residualPool st).isEmpty then
    none
  else
    match ilpSolveWith (residualFeasible st m) (residualPool st) with
    | none => none
    | some sel =>
        let newPlayers := sel.map extractPlayer
        let total := lockedSalary + totalSalary sel
        some { players := locked ++ newPlayers
               total_salary := total
               projected_points := round2 (lockedPoints + totalPoints sel)
               remaining_cap := st.salary_cap - total
               salary_cap := st.salary_cap
               is_valid := decide (total ≤ st.salary_cap)
                             && ((locked ++ newPlayers).length == 7)
               captain_id := ""
               captain_bonus_points := 0 }

/-- `_generate_lineup_without_captain` (lines 425-440): route to the
locked decomposition exactly when locked players exist. -/
def generateLineupWithoutCaptain (st : OptState) (m : Nat) : Option CFLLineup :=
  if st.locked_players.length > 0 then generateLineupWithLocked st m
  else generateLineupStandard st m

/-- The temporary player built for a captain candidate (lines 366-376):
the listed fields are copied, `projected_points` is doubled, and the
remaining fields (`is_captain`, `is_locked`, `is_current_lineup`) take
their dataclass defaults. -/
def doubleCandidate (p : CFLPlayer) : CFLPlayer :=
  { id := p.id
    name := p.name
    position := p.position
    team := p.team
    salary := p.salary
    projected_points := p.projected_points * 2
    ownership := p.ownership
    status := p.status }

/-- `temp_players` (lines 362-379): a fresh pool in which the candidate's
entry is replaced by its doubled copy. -/
def doublePool (cid : String) (ps : List CFLPlayer) : List CFLPlayer :=
  ps.map (fun p => if p.id == cid then doubleCandidate p else p)

/-- `captain_candidates` (line 353): every non-DEF player of the pool. -/
def captainCandidates (st : OptState) : List CFLPlayer :=
  st.players.filter (fun p => p.position != "DEF")

/-- The loop accumulator of `_generate_lineup_with_captain`
(lines 355-357). -/
structure BestAcc where
  best_lineup : Option CFLLineup
  best_total_points : ℚ
  best_captain : Option CFLPlayer

/-- One iteration of the captain loop (lines 360-399): install the
doubled pool into `self.players`, run the sub-solve (a raising sub-solve
is caught and skipped), keep the lineup on strict improvement, and in the
`finally` block restore `self.players` to the saved original. -/
def customCaptainIteration (m : Nat) (p : BestAcc × OptState) (c : CFLPlayer) :
    BestAcc × OptState :=
  let acc := p.1
  let st := p.2
  let originalPlayers := st.players
  let stTemp := { st with players := doublePool c.id st.players }
  let acc2 :=
    match generateLineupWithoutCaptain stTemp m with
    | some L =>
        if acc.best_total_points < L.projected_points then
          ⟨some L, L.projected_points, some c⟩
        else acc
    | none => acc
  (acc2, { stTemp with players := originalPlayers })

/-- The whole captain loop threaded through the optimizer state, with the
initial accumulator of lines 355-357. -/
def captainFold (st : OptState) (m : Nat) : BestAcc × OptState :=
  (captainCandidates st).foldl (customCaptainIteration m) (⟨none, 0, none⟩, st)

/-- Set `is_captain` on the first player with the given id
(lines 403-406). -/
def markCaptain (cid : String) : List CFLPlayer → List CFLPlayer
  | [] => []
  | p :: rest =>
      if p.id == cid then { p with is_captain := true } :: rest
      else p :: markCaptain cid rest

/-- `_generate_lineup_with_captain` (lines 349-423): run the loop; when a
best lineup and captain were recorded, mark the captain, set
`captain_id` and the undoubled `captain_bonus_points`, and recompute the
total as the sum of the stored player points plus the bonus
(lines 401-416; marking does not change any `projected_points`, so the
sum is taken over the unmarked list); otherwise fall back to the
no-captain solve (line 419). -/
def generateLineupWithCaptain (st : OptState) (m : Nat) : Option CFLLineup :=
  let acc := (captainFold st m).1
  match acc.best_lineup, acc.best_captain with
  | some L, some c =>
      some { L with
             players := markCaptain c.id L.players
             captain_id := c.id
             captain_bonus_points := c.projected_points
             projected_points := totalPoints L.players + c.projected_points }
  | some _, none => generateLineupWithoutCaptain st m
  | none, _ => generateLineupWithoutCaptain st m

/-- `generate_lineup` (lines 337-347). -/
def generateLineup (st : OptState) (m : Nat) (useCaptain : Bool) : Option CFLLineup :=
  if useCaptain then generateLineupWithCaptain st m
  else generateLineupWithoutCaptain st m

/-!
Embedding of the captain loop of `cfl_pydfs_optimizer.py`
(`get_best_lineup`, lines 241-283).  There the pool lives inside the
external pydfs optimizer object and the doubling mutates the shared
player object in place (`captain.fppg *= 2`, line 256), restoring it in a
`finally` (line 272).  The pool is modelled as explicit state threaded
through the loop; the external `optimizer.optimize(1)` backend is a
function parameter.  Sub-solves address the mutated player by list index,
the value-level counterpart of Python object identity.
-/

/-- A player record of the pydfs pool: the fields `get_best_lineup`
reads. -/
structure PdfsPlayer where
  id : String
  positions : List String
  fppg : ℚ
deriving DecidableEq

/-- The shared pool as it stands between `captain.fppg *= 2` (line 256)
and the restoring `finally` (line 272), i.e. while the sub-solve of
line 260 runs: the candidate's entry holds the doubled value. -/
def pydfsPoolDuringSolve (pool : List PdfsPlayer) (i : Nat) : List PdfsPlayer :=
  match pool.get? i with
  | none => pool
  | some captain => pool.set i { captain with fppg := captain.fppg * 2 }

/-- One iteration of the pydfs captain loop (lines 253-272): double the
shared entry in place, solve, then assign the saved `original_fppg` back
to the same entry (which restores its original record value). -/
def pydfsStep (solve : List PdfsPlayer → Option ℚ) (pool : List PdfsPlayer)
    (i : Nat) : Option ℚ × List PdfsPlayer :=
  match pool.get? i with
  | none => (none, pool)
  | some captain =>
      let r := solve (pydfsPoolDuringSolve pool i)
      (r, (pydfsPoolDuringSolve pool i).set i captain)

/-- `candidates` (lines 248-249): indices of the non-DEF players. -/
def pydfsCandidateIdxs (pool : List PdfsPlayer) : List Nat :=
  (List.range pool.length).filter (fun i =>
    match pool.get? i with
    | some p => !(p.positions.contains "DEF")
    | none => false)

/-- One pass of the pydfs loop body: run the sub-solve on the threaded
pool and keep the best points / captain index on strict improvement
(lines 263-266). -/
def pydfsLoopStep (solve : List PdfsPlayer → Option ℚ)
    (p : (ℚ × Option Nat) × List PdfsPlayer) (i : Nat) :
    (ℚ × Option Nat) × List PdfsPlayer :=
  let best := p.1
  let step := pydfsStep solve p.2 i
  (match step.1 with
   | some pts => if best.1 < pts then (pts, some i) else best
   | none => best,
   step.2)

/-- The whole pydfs captain loop (lines 243-272) with its
`best_points = -1` start, threading the shared pool. -/
def pydfsLoop (solve : List PdfsPlayer → Option ℚ) (pool : List PdfsPlayer) :
    (ℚ × Option Nat) × List PdfsPlayer :=
  (pydfsCandidateIdxs pool).foldl (pydfsLoopStep solve) ((-1, none), pool)

/-!
## Concrete synthetic pools

Small pools used to evaluate the embedded program at explicit inputs.
All point values are integral, so exact rational arithmetic, IEEE floats
and `round(x, 2)` agree on every number that appears.
-/

/-- A placeholder lineup for `Option.getD`; never a solver result. -/
def dummyLineup : CFLLineup :=
  { players := [], total_salary := 0, projected_points := 0,
    remaining_cap := 0, salary_cap := 0, is_valid := false }

def pQB : CFLPlayer :=
  { id := "p1", name := "p1", position := "QB", team := "A", salary := 80, projected_points := 16 }

def pRB1 : CFLPlayer :=
  { id := "p2", name := "p2", position := "RB", team := "B", salary := 75, projected_points := 12 }

def pRB2 : CFLPlayer :=
  { id := "p3", name := "p3", position := "RB", team := "C", salary := 65, projected_points := 10 }

def pWR1 : CFLPlayer :=
  { id := "p4", name := "p4", position := "WR", team := "D", salary := 85, projected_points := 14 }

def pWR2 : CFLPlayer :=
  { id := "p5", name := "p5", position := "WR", team := "E", salary := 72, projected_points := 11 }

def pTE : CFLPlayer :=
  { id := "p6", name := "p6", position := "TE", team := "F", salary := 68, projected_points := 9 }

def stdTeamG : CFLTeam :=
  { id := "t1", name := "G Team", abbreviation := "G", salary := 50, projected_points := 8 }

def stdPool : List CFLPlayer := [pQB, pRB1, pRB2, pWR1, pWR2, pTE]

/-- A pool of six players and one defense team: exactly one feasible
lineup (all seven options), no locked players. -/
def stdState : OptState :=
  { players := stdPool, teams := [stdTeamG],
    locked_players := [], available_players := stdPool }

/-- A full roster of seven locked players (as after loading a completely
locked current lineup). -/
def lockPool : List CFLPlayer :=
  [ { id := "L1", name := "L1", position := "QB", team := "A", salary := 80,
      projected_points := 16, is_locked := true, is_current_lineup := true },
    { id := "L2", name := "L2", position := "RB", team := "B", salary := 75,
      projected_points := 12, is_locked := true, is_current_lineup := true },
    { id := "L3", name := "L3", position := "RB", team := "C", salary := 65,
      projected_points := 10, is_locked := true, is_current_lineup := true },
    { id := "L4", name := "L4", position := "WR", team := "D", salary := 85,
      projected_points := 14, is_locked := true, is_current_lineup := true },
    { id := "L5", name := "L5", position := "WR", team := "E", salary := 72,
      projected_points := 11, is_locked := true, is_current_lineup := true },
    { id := "L6", name := "L6", position := "TE", team := "F", salary := 68,
      projected_points := 9, is_locked := true, is_current_lineup := true },
    { id := "L7", name := "L7", position := "TE", team := "G", salary := 60,
      projected_points := 7, is_locked := true, is_current_lineup := true } ]

def lockedState : OptState :=
  { players := lockPool, teams := [],
    locked_players := lockPool, available_players := [] }

def lockA : CFLPlayer :=
  { id := "L1", name := "L1", position := "QB", team := "A", salary := 80,
    projected_points := 16, is_locked := true, is_current_lineup := true }

def lockB : CFLPlayer :=
  { id := "L2", name := "L2", position := "WR", team := "B", salary := 75,
    projected_points := 12, is_locked := true, is_current_lineup := true }

def avWR : CFLPlayer :=
  { id := "a1", name := "a1", position := "WR", team := "C", salary := 70, projected_points := 11 }

def avRB1 : CFLPlayer :=
  { id := "a2", name := "a2", position := "RB", team := "D", salary := 66, projected_points := 10 }

def avRB2 : CFLPlayer :=
  { id := "a3", name := "a3", position := "RB", team := "E", salary := 64, projected_points := 9 }

def avTE : CFLPlayer :=
  { id := "a4", name := "a4", position := "TE", team := "F", salary := 62, projected_points := 8 }

/-- Two locked players plus four available players and one defense team:
the locked decomposition solves a residual problem with five open
slots. -/
def partState : OptState :=
  { players := [lockA, lockB, avWR, avRB1, avRB2, avTE], teams := [stdTeamG],
    locked_players := [lockA, lockB],
    available_players := [avWR, avRB1, avRB2, avTE] }

/-- A pool with no QB-role candidate at all. -/
def noQBState : OptState :=
  { players := [pRB1, pRB2, pWR1, pWR2, pTE], teams := [stdTeamG],
    locked_players := [], available_players := [pRB1, pRB2, pWR1, pWR2, pTE] }

/-- The selection the modelled solver returns on `stdState`. -/
def stdSelW : List CFLPlayer :=
  (ilpSolve stdState.salary_cap 3 (allOptions stdState)).getD []

/-- The lineup the standard path returns on `stdState`. -/
def stdLineupW : CFLLineup :=
  (generateLineupStandard stdState 3).getD dummyLineup

/-- The lineup the Captain Search Controller returns on `stdState`. -/
def captainLineupW : CFLLineup :=
  (generateLineupWithCaptain stdState 3).getD dummyLineup

/-- The lineup the locked decomposition returns on `lockedState`. -/
def lockedLineupW : CFLLineup :=
  (generateLineupWithLocked lockedState 3).getD dummyLineup

/-- The lineup the locked decomposition returns on `partState`. -/
def partLineupW : CFLLineup :=
  (generateLineupWithLocked partState 3).getD dummyLineup

/-- The undoubled projected points of `ps`, read off the original
candidate pool of `st` by id (the "base points of selected" of the
captain-correctness claim), plus nothing else. -/
def basePoints (st : OptState) (ps : List CFLPlayer) : ℚ :=
  (ps.map (fun p =>
    ((((allOptions st).find? (fun q => q.id == p.id)).map (·.projected_points)).getD 0))).sum

/-- A one-player pydfs pool. -/
def pdfsPool1 : List PdfsPlayer :=
  [ { id := "a", positions := ["QB"], fppg := 5 } ]

/-! ## Lemmas about the exhaustive solver -/

theorem pickBestAux_mem (s : List CFLPlayer) (rest : List (List CFLPlayer)) :
    pickBestAux s rest ∈ s :: rest := by
  induction rest generalizing s with
  | nil => simp [pickBestAux]
  | cons r rest ih =>
      have h := ih (if totalPoints s < totalPoints r then r else s)
      simp only [pickBestAux, List.foldl_cons] at h ⊢
      rcases List.mem_cons.1 h with h1 | h1
      · rw [h1]
        by_cases hc : totalPoints s < totalPoints r
        · simp [hc]
        · simp [hc]
      · simp [h1]

theorem le_pickBestAux (s : List CFLPlayer) (rest : List (List CFLPlayer)) :
    ∀ x ∈ s :: rest, totalPoints x ≤ totalPoints (pickBestAux s rest) := by
  induction rest generalizing s with
  | nil => simp [pickBestAux]
  | cons r rest ih =>
      intro x hx
      have hstep : totalPoints s ≤ totalPoints (if totalPoints s < totalPoints r then r else s)
          ∧ totalPoints r ≤ totalPoints (if totalPoints s < totalPoints r then r else s) := by
        by_cases hc : totalPoints s < totalPoints r
        · simp [hc, le_of_lt hc]
        · simp [hc, le_of_not_lt hc]
      have hbest := ih (if totalPoints s < totalPoints r then r else s)
      have hres : pickBestAux s (r :: rest)
          = pickBestAux (if totalPoints s < totalPoints r then r else s) rest := by
        simp [pickBestAux]
      rw [hres]
      rcases List.mem_cons.1 hx with h1 | h1
      · subst h1
        exact le_trans hstep.1 (hbest _ (List.mem_cons_self _ _))
      · rcases List.mem_cons.1 h1 with h2 | h2
        · subst h2
          exact le_trans hstep.2 (hbest _ (List.mem_cons_self _ _))
        · exact hbest _ (List.mem_cons_of_mem _ h2)

theorem ilpSolveWith_eq_some (p : List CFLPlayer → Bool) (pool sel : List CFLPlayer)
    (h : ilpSolveWith p pool = some sel) : List.Sublist sel pool ∧ p sel = true := by
  unfold ilpSolveWith at h
  rcases hf : pool.sublists.filter p with _ | ⟨s, rest⟩
  · rw [hf] at h
    simp at h
  · rw [hf] at h
    simp only [Option.some.injEq] at h
    have hmem : sel ∈ s :: rest := h ▸ pickBestAux_mem s rest
    have : sel ∈ pool.sublists.filter p := hf ▸ hmem
    have h2 := List.mem_filter.1 this
    exact ⟨List.mem_sublists.1 h2.1, h2.2⟩

theorem ilpSolveWith_optimal (p : List CFLPlayer → Bool) (pool sel : List CFLPlayer)
    (h : ilpSolveWith p pool = some sel) (sel' : List CFLPlayer)
    (hsub : List.Sublist sel' pool) (hfeas : p sel' = true) :
    totalPoints sel' ≤ totalPoints sel := by
  unfold ilpSolveWith at h
  rcases hf : pool.sublists.filter p with _ | ⟨s, rest⟩
  · rw [hf] at h
    simp at h
  · rw [hf] at h
    simp only [Option.some.injEq] at h
    have hmem : sel' ∈ pool.sublists.filter p :=
      List.mem_filter.2 ⟨List.mem_sublists.2 hsub, hfeas⟩
    rw [hf] at hmem
    exact h ▸ le_pickBestAux s rest sel' hmem

theorem ilpSolveWith_eq_none (p : List CFLPlayer → Bool) (pool : List CFLPlayer)
    (h : ∀ sel, List.Sublist sel pool → p sel = false) : ilpSolveWith p pool = none := by
  unfold ilpSolveWith
  have hf : pool.sublists.filter p = [] := by
    apply List.filter_eq_nil_iff.2
    intro a ha
    exact (h a (List.mem_sublists.1 ha)) ▸ Bool.false_ne_true
  rw [hf]

/-! ## Lemmas about the counting dicts -/

theorem lookupD_tallyInsert (d : List (String × Nat)) (k2 k : String) :
    lookupD (tallyInsert d k2) k = lookupD d k + (if k2 == k then 1 else 0) := by
  induction d with
  | nil =>
      by_cases h : k2 == k
      · simp only [tallyInsert, lookupD, List.find?]
        simp [h, beq_iff_eq.1 h]
      · simp only [tallyInsert, lookupD, List.find?]
        have : (k2 == k) = false := by
          simpa using h
        simp [this]
  | cons e rest ih =>
      obtain ⟨ek, ev⟩ := e
      by_cases hh : ek == k2
      · have hek : ek = k2 := beq_iff_eq.1 hh
        subst hek
        simp only [tallyInsert, hh, if_pos, beq_self_eq_true]
        by_cases hk : ek == k
        · have : ek = k := beq_iff_eq.1 hk
          subst this
          simp [lookupD, List.find?]
        · have hkf : (ek == k) = false := by simpa using hk
          simp [lookupD, List.find?, hkf]
      · have hhf : (ek == k2) = false := by simpa using hh
        simp only [tallyInsert, hhf, Bool.false_eq_true, if_false]
        by_cases hk : ek == k
        · have hek : ek = k := beq_iff_eq.1 hk
          have hne : (k2 == k) = false := by
            apply beq_eq_false_iff_ne.2
            intro hkk
            exact hh (by simp [hek, hkk])
          simp [lookupD, List.find?, hk, hne]
        · have hkf : (ek == k) = false := by simpa using hk
          simp only [lookupD, List.find?, hkf] at ih ⊢
          exact ih

theorem lookupD_foldl_tallyInsert (ks : List String) (d : List (String × Nat)) (k : String) :
    lookupD (ks.foldl tallyInsert d) k = lookupD d k + ks.countP (fun s => s == k) := by
  induction ks generalizing d with
  | nil => simp
  | cons a ks ih =>
      simp only [List.foldl_cons, ih, lookupD_tallyInsert, List.countP_cons]
      by_cases h : a == k
      · simp [h]
        omega
      · have : (a == k) = false := by simpa using h
        simp [this]

theorem lookupD_tally (ks : List String) (k : String) :
    lookupD (tally ks) k = ks.countP (fun s => s == k) := by
  rw [tally, lookupD_foldl_tallyInsert]
  simp [lookupD, List.find?]

theorem lookupD_lockedPositionTally (st : OptState) (pos : String) :
    lookupD (lockedPositionTally st) pos = countPos st.locked_players pos := by
  rw [lockedPositionTally, lookupD_tally, List.countP_map]
  rfl

theorem lookupD_lockedTeamTally (st : OptState) (team : String) :
    lookupD (lockedTeamTally st) team
      = st.locked_players.countP (fun p => p.team == team) := by
  rw [lockedTeamTally, lookupD_tally, List.countP_map]
  rfl

/-! ## Transfer lemmas for the extraction step -/

theorem countPos_map_extract (sel : List CFLPlayer) (pos : String) :
    countPos (sel.map extractPlayer) pos = countPos sel pos := by
  rw [countPos, List.countP_map]
  rfl

theorem countFlex_map_extract (sel : List CFLPlayer) :
    (sel.map extractPlayer).countP (fun o => flexPositions.contains o.position)
      = sel.countP (fun o => flexPositions.contains o.position) := by
  rw [List.countP_map]
  rfl

theorem countTeam_map_extract (sel : List CFLPlayer) (team : String) :
    (sel.map extractPlayer).countP (fun o => o.team == team)
      = sel.countP (fun o => o.team == team) := by
  rw [List.countP_map]
  rfl

theorem totalSalary_map_extract (sel : List CFLPlayer) :
    totalSalary (sel.map extractPlayer) = totalSalary sel := by
  rw [totalSalary, List.map_map]
  rfl

theorem totalSalary_append (a b : List CFLPlayer) :
    totalSalary (a ++ b) = totalSalary a + totalSalary b := by
  simp [totalSalary]

/-! ## Claim theorems: the standard Roster Solver -/

/-- C1: whenever the Roster Solver succeeds on a candidate pool, the
selection it returns is the lineup assembled by the Result Assembler and
no other subset of the pool that satisfies all constraints (salary cap,
position counts, team limits, roster size — `isFeasible`) has strictly
greater total projected points. -/
theorem roster_solver_optimal (st : OptState) (m : Nat) (sel : List CFLPlayer)
    (h : ilpSolve st.salary_cap m (allOptions st) = some sel) :
    generateLineupStandard st m = some (mkLineup st.salary_cap sel)
    ∧ ∀ sel', List.Sublist sel' (allOptions st) →
        isFeasible st.salary_cap m sel' = true →
        totalPoints sel' ≤ totalPoints sel := by
  constructor
  · simp [generateLineupStandard, h]
  · intro sel' hsub hfeas
    exact ilpSolveWith_optimal _ _ _ h sel' hsub hfeas

/-- Witness for C1 on the concrete pool `stdState`. -/
theorem roster_solver_optimal_witness :
    generateLineupStandard stdState 3 = some (mkLineup stdState.salary_cap stdSelW)
    ∧ totalPoints stdSelW ≤ totalPoints stdSelW := by
  have h : ilpSolve stdState.salary_cap 3 (allOptions stdState) = some stdSelW := by
    with_unfolding_all rfl
  have hsel : stdSelW = allOptions stdState := by
    with_unfolding_all rfl
  exact ⟨(roster_solver_optimal stdState 3 stdSelW h).1,
         (roster_solver_optimal stdState 3 stdSelW h).2 stdSelW
           (by rw [hsel]) (by with_unfolding_all rfl)⟩

/-- C2: whenever the Roster Solver succeeds, the returned lineup has
exactly 7 candidates, total salary within the cap, exactly 1 QB, exactly
1 DEF, at least 2 WR, at least 2 RB, exactly 5 flex (WR/RB/TE)
candidates, and at most `m` candidates from any single team (the source
default for `m` is 3). -/
theorem roster_solver_lineup_shape (st : OptState) (m : Nat) (L : CFLLineup)
    (h : generateLineupStandard st m = some L) :
    L.players.length = 7
    ∧ L.total_salary ≤ st.salary_cap
    ∧ countPos L.players "QB" = 1
    ∧ countPos L.players "DEF" = 1
    ∧ 2 ≤ countPos L.players "WR"
    ∧ 2 ≤ countPos L.players "RB"
    ∧ L.players.countP (fun o => flexPositions.contains o.position) = 5
    ∧ ∀ p ∈ L.players, L.players.countP (fun o2 => o2.team == p.team) ≤ m := by
  unfold generateLineupStandard at h
  rcases Option.map_eq_some'.1 h with ⟨sel, hsel, hL⟩
  obtain ⟨hsub, hfeas⟩ := ilpSolveWith_eq_some _ _ _ hsel
  unfold isFeasible at hfeas
  simp only [Bool.and_eq_true, decide_eq_true_eq, beq_iff_eq,
    List.all_eq_true] at hfeas
  obtain ⟨⟨⟨⟨⟨⟨⟨hsal, hqb⟩, hdef⟩, hflex⟩, hwr⟩, hrb⟩, hlen⟩, hteam⟩ := hfeas
  subst hL
  refine ⟨?_, ?_, ?_, ?_, ?_, ?_, ?_, ?_⟩
  · simp [mkLineup, hlen]
  · simpa [mkLineup] using hsal
  · rw [show (mkLineup st.salary_cap sel).players = sel.map extractPlayer from rfl,
      countPos_map_extract]
    exact hqb
  · rw [show (mkLineup st.salary_cap sel).players = sel.map extractPlayer from rfl,
      countPos_map_extract]
    exact hdef
  · rw [show (mkLineup st.salary_cap sel).players = sel.map extractPlayer from rfl,
      countPos_map_extract]
    exact hwr
  · rw [show (mkLineup st.salary_cap sel).players = sel.map extractPlayer from rfl,
      countPos_map_extract]
    exact hrb
  · rw [show (mkLineup st.salary_cap sel).players = sel.map extractPlayer from rfl,
      countFlex_map_extract]
    exact hflex
  · intro p hp
    rw [show (mkLineup st.salary_cap sel).players = sel.map extractPlayer from rfl] at hp ⊢
    rcases List.mem_map.1 hp with ⟨o, ho, hpo⟩
    have := hteam o ho
    rw [countTeam_map_extract]
    have hpt : p.team = o.team := by rw [← hpo]; rfl
    rw [hpt]
    simpa using this

/-- Witness for C2 on the concrete pool `stdState`. -/
theorem roster_solver_lineup_shape_witness :
    stdLineupW.players.length = 7
    ∧ stdLineupW.total_salary ≤ stdState.salary_cap
    ∧ countPos stdLineupW.players "QB" = 1
    ∧ countPos stdLineupW.players "DEF" = 1
    ∧ 2 ≤ countPos stdLineupW.players "WR"
    ∧ 2 ≤ countPos stdLineupW.players "RB"
    ∧ stdLineupW.players.countP (fun o => flexPositions.contains o.position) = 5
    ∧ ∀ p ∈ stdLineupW.players,
        stdLineupW.players.countP (fun o2 => o2.team == p.team) ≤ 3 :=
  roster_solver_lineup_shape stdState 3 stdLineupW (by with_unfolding_all rfl)

/-- C8: a pool with zero QB-role candidates makes the Roster Solver
return the infeasibility signal (`none`, the modelled
`No optimal solution found` exception), and in general any pool whose
constraint set admits no satisfying assignment yields that signal, with
no retry. -/
theorem infeasible_pool_returns_none :
    (∀ st m, st.players.all (fun p => p.position != "QB") = true →
        generateLineupStandard st m = none)
    ∧ (∀ st m, (∀ sel, List.Sublist sel (allOptions st) →
          isFeasible st.salary_cap m sel = false) →
        generateLineupStandard st m = none) := by
  have hgen : ∀ st m, (∀ sel, List.Sublist sel (allOptions st) →
      isFeasible st.salary_cap m sel = false) →
      generateLineupStandard st m = none := by
    intro st m h
    unfold generateLineupStandard ilpSolve
    rw [ilpSolveWith_eq_none _ _ h]
    rfl
  refine ⟨?_, hgen⟩
  intro st m hall
  apply hgen
  intro sel hsub
  cases hfe : isFeasible st.salary_cap m sel with
  | false => rfl
  | true =>
      exfalso
      unfold isFeasible at hfe
      simp only [Bool.and_eq_true, beq_iff_eq] at hfe
      have hqb : countPos sel "QB" = 1 := hfe.1.1.1.1.1.1.2
      have hpos : 0 < sel.countP (fun o => o.position == "QB") := by
        rw [show sel.countP (fun o => o.position == "QB") = countPos sel "QB" from rfl, hqb]
        omega
      rcases List.countP_pos_iff.1 hpos with ⟨o, ho, hoQB⟩
      have hoQB2 : o.position = "QB" := beq_iff_eq.1 hoQB
      have homem : o ∈ allOptions st := (List.Sublist.subset hsub) ho
      rcases List.mem_append.1 homem with hp | ht
      · have := List.all_eq_true.1 hall o hp
        rw [bne_iff_ne] at this
        exact this hoQB2
      · rcases List.mem_map.1 ht with ⟨t, _, hteq⟩
        have : o.position = "DEF" := by rw [← hteq]; rfl
        rw [hoQB2] at this
        exact absurd this (by decide)

/-- Witness for C8 on the QB-free pool `noQBState`. -/
theorem infeasible_pool_returns_none_witness :
    generateLineupStandard noQBState 3 = none :=
  infeasible_pool_returns_none.1 noQBState 3 (by decide)

/-- C9: the Result Assembler always sets
`remaining_cap = salary_cap − total_salary`, `total_salary` to the sum
of the selected candidates' salaries, and `is_valid` exactly when the
salary fits the cap and the roster has 7 players — with no feasibility
hypothesis on the selection, so positional or team-limit violations do
not affect `is_valid`; the same holds for the lineups assembled by the
locked decomposition. -/
theorem result_assembler_fields :
    (∀ cap sel,
        (mkLineup cap sel).remaining_cap = cap - (mkLineup cap sel).total_salary
        ∧ (mkLineup cap sel).total_salary = totalSalary (mkLineup cap sel).players
        ∧ ((mkLineup cap sel).is_valid = true ↔
            ((mkLineup cap sel).total_salary ≤ cap
              ∧ (mkLineup cap sel).players.length = 7)))
    ∧ (∀ st m L, generateLineupWithLocked st m = some L →
        L.remaining_cap = st.salary_cap - L.total_salary
        ∧ L.total_salary = totalSalary L.players
        ∧ (L.is_valid = true ↔
            (L.total_salary ≤ st.salary_cap ∧ L.players.length = 7))) := by
  constructor
  · intro cap sel
    refine ⟨rfl, ?_, ?_⟩
    · show totalSalary sel = totalSalary (sel.map extractPlayer)
      rw [totalSalary_map_extract]
    · show (decide (totalSalary sel ≤ cap) && ((sel.map extractPlayer).length == 7)) = true ↔ _
      rw [show (mkLineup cap sel).players = sel.map extractPlayer from rfl,
        show (mkLineup cap sel).total_salary = totalSalary sel from rfl]
      simp [List.length_map]
  · intro st m L h
    unfold generateLineupWithLocked at h
    split at h
    · injection h with h
      subst h
      refine ⟨rfl, rfl, ?_⟩
      show (decide (totalSalary st.locked_players ≤ st.salary_cap)
              && (st.locked_players.length == 7)) = true ↔ _
      simp
    · split at h
      · exact absurd h (by simp)
      · split at h
        · exact absurd h (by simp)
        · injection h with h
          subst h
          refine ⟨rfl, ?_, ?_⟩
          · show _ = totalSalary (st.locked_players ++ _)
            rw [totalSalary_append, totalSalary_map_extract]
          · show (decide _ && ((st.locked_players ++ _).length == 7)) = true ↔ _
            simp

/-- Witness for C9: the assembler equations at a one-player selection and
at the lineup the locked decomposition returns on `partState`. -/
theorem result_assembler_fields_witness :
    (mkLineup 100 [pQB]).remaining_cap = 100 - (mkLineup 100 [pQB]).total_salary
    ∧ partLineupW.remaining_cap = partState.salary_cap - partLineupW.total_salary
    ∧ partLineupW.total_salary = totalSalary partLineupW.players := by
  have h : generateLineupWithLocked partState 3 = some partLineupW := by
    with_unfolding_all rfl
  exact ⟨(result_assembler_fields.1 100 [pQB]).1,
         (result_assembler_fields.2 partState 3 partLineupW h).1,
         (result_assembler_fields.2 partState 3 partLineupW h).2.1⟩

/-- C5: every success of the Locked-Slot Partitioner keeps the locked
candidates unchanged at the front of the lineup, and when the locked
candidates already fill all roster slots the lineup is exactly the
locked set, with `is_valid` computed from the locked salary and the
locked count. -/
theorem locked_partitioner_keeps_locked (st : OptState) (m : Nat) (L : CFLLineup)
    (h : generateLineupWithLocked st m = some L) :
    (st.locked_players <+: L.players)
    ∧ (remainingSpots st = 0 →
        L.players = st.locked_players
        ∧ L.total_salary = totalSalary st.locked_players
        ∧ L.is_valid = (decide (totalSalary st.locked_players ≤ st.salary_cap)
            && (st.locked_players.length == 7))) := by
  unfold generateLineupWithLocked at h
  split at h
  · injection h with h
    subst h
    exact ⟨List.prefix_refl _, fun _ => ⟨rfl, rfl, rfl⟩⟩
  · rename_i hcond
    split at h
    · exact absurd h (by simp)
    · split at h
      · exact absurd h (by simp)
      · injection h with h
        subst h
        refine ⟨List.prefix_append _ _, fun h0 => absurd h0 ?_⟩
        intro h0
        exact hcond (by omega)

/-- Witness for C5 on the fully locked pool `lockedState`. -/
theorem locked_partitioner_keeps_locked_witness :
    (lockedState.locked_players <+: lockedLineupW.players)
    ∧ lockedLineupW.players = lockedState.locked_players := by
  have h : generateLineupWithLocked lockedState 3 = some lockedLineupW := by
    with_unfolding_all rfl
  exact ⟨(locked_partitioner_keeps_locked lockedState 3 lockedLineupW h).1,
         ((locked_partitioner_keeps_locked lockedState 3 lockedLineupW h).2 (by decide)).1⟩

/-- C6: the residual quantities of the locked decomposition equal the
claimed formulas — residual budget `salaryCap − lockedSalary`, residual
roster size `7 − |locked|`, residual count
`max(0, original − lockedCountForRole)` for every entry of the
requirement table, residual per-team allowance
`max(0, maxPerTeam − lockedCountForTeam)` — and the residual pool
(over which `generateLineupWithLocked` runs its solve) contains no
locked candidate's id. -/
theorem locked_residual_constraints (st : OptState) (m : Nat) :
    remainingSalary st = st.salary_cap - totalSalary st.locked_players
    ∧ remainingSpots st = 7 - (st.locked_players.length : Int)
    ∧ (∀ pos need, (pos, need) ∈ positionRequirements →
        (lookupD (remainingRequirements st) pos : Int)
          = max 0 ((need : Int) - (countPos st.locked_players pos : Int)))
    ∧ (∀ team, (remainingTeamAllowance st m team : Int)
          = max 0 ((m : Int) - ((st.locked_players.countP (fun p => p.team == team)) : Int)))
    ∧ (∀ o ∈ residualPool st, ∀ lp ∈ st.locked_players, o.id ≠ lp.id) := by
  refine ⟨rfl, rfl, ?_, ?_, ?_⟩
  · intro pos need hmem
    simp only [positionRequirements, List.mem_cons, List.not_mem_nil, or_false,
      Prod.mk.injEq] at hmem
    rcases hmem with ⟨h1, h2⟩ | ⟨h1, h2⟩ | ⟨h1, h2⟩ | ⟨h1, h2⟩ | ⟨h1, h2⟩ <;>
      subst h1 <;> subst h2
    · rw [show lookupD (remainingRequirements st) "QB"
          = 1 - lookupD (lockedPositionTally st) "QB" from rfl,
        lookupD_lockedPositionTally]
      omega
    · rw [show lookupD (remainingRequirements st) "WR"
          = 2 - lookupD (lockedPositionTally st) "WR" from rfl,
        lookupD_lockedPositionTally]
      omega
    · rw [show lookupD (remainingRequirements st) "RB"
          = 2 - lookupD (lockedPositionTally st) "RB" from rfl,
        lookupD_lockedPositionTally]
      omega
    · rw [show lookupD (remainingRequirements st) "FLEX"
          = 1 - lookupD (lockedPositionTally st) "FLEX" from rfl,
        lookupD_lockedPositionTally]
      omega
    · rw [show lookupD (remainingRequirements st) "DEF"
          = 1 - lookupD (lockedPositionTally st) "DEF" from rfl,
        lookupD_lockedPositionTally]
      omega
  · intro team
    rw [show remainingTeamAllowance st m team
        = m - lookupD (lockedTeamTally st) team from rfl,
      lookupD_lockedTeamTally]
    omega
  · intro o ho lp hlp hid
    unfold residualPool at ho
    have hlpid : lp.id ∈ st.locked_players.map (·.id) :=
      List.mem_map.2 ⟨lp, hlp, rfl⟩
    have hoid : o.id ∈ st.locked_players.map (·.id) := by
      rw [hid]
      exact hlpid
    rcases List.mem_append.1 ho with hav | hdf
    · have hb := (List.mem_filter.1 hav).2
      simp only [Bool.not_eq_true'] at hb
      have hc : (st.locked_players.map (·.id)).contains o.id = true :=
        List.elem_eq_true_of_mem hoid
      rw [hb] at hc
      cases hc
    · split at hdf
      · rcases List.mem_map.1 hdf with ⟨t, ht, hto⟩
        have htb := (List.mem_filter.1 ht).2
        simp only [Bool.not_eq_true'] at htb
        have hot : o.id = "DEF_" ++ t.id := by rw [← hto]; rfl
        have hc : (st.locked_players.map (·.id)).contains ("DEF_" ++ t.id) = true :=
          List.elem_eq_true_of_mem (hot ▸ hoid)
        rw [htb] at hc
        cases hc
      · simp at hdf

/-- Witness for C6 on the partially locked pool `partState`. -/
theorem locked_residual_constraints_witness :
    (lookupD (remainingRequirements partState) "WR" : Int)
      = max 0 ((2 : Int) - (countPos partState.locked_players "WR" : Int))
    ∧ (remainingTeamAllowance partState 3 "A" : Int)
      = max 0 ((3 : Int) - ((partState.locked_players.countP (fun p => p.team == "A")) : Int))
    ∧ ∀ lp ∈ partState.locked_players, avWR.id ≠ lp.id := by
  refine ⟨(locked_residual_constraints partState 3).2.2.1 "WR" 2 (by decide),
         (locked_residual_constraints partState 3).2.2.2.1 "A",
         (locked_residual_constraints partState 3).2.2.2.2 avWR ?_⟩
  decide

/-! ## Claim theorems: the Captain Search Controller -/

/-- C4: whenever the Captain Search Controller returns a lineup with a
captain set, the captain is one of the non-DEF candidates of the
original pool, `captain_id` is that candidate's id, and
`captain_bonus_points` is that candidate's own original, undoubled
projected points. -/
theorem captain_bonus_is_original_points (st : OptState) (m : Nat) (L : CFLLineup)
    (h : generateLineupWithCaptain st m = some L) (hcap : L.captain_id ≠ "") :
    ∃ c, c ∈ st.players ∧ c.position ≠ "DEF"
      ∧ L.captain_id = c.id ∧ L.captain_bonus_points = c.projected_points := by
  have hnocap : ∀ L2, generateLineupWithoutCaptain st m = some L2 → L2.captain_id = "" := by
    intro L2 h2
    unfold generateLineupWithoutCaptain at h2
    split at h2
    · unfold generateLineupWithLocked at h2
      split at h2
      · injection h2 with h2
        subst h2
        rfl
      · split at h2
        · exact absurd h2 (by simp)
        · split at h2
          · exact absurd h2 (by simp)
          · injection h2 with h2
            subst h2
            rfl
    · unfold generateLineupStandard at h2
      rcases Option.map_eq_some'.1 h2 with ⟨sel, _, hL2⟩
      subst hL2
      rfl
  have hmem : ∀ (l : List CFLPlayer) (p : BestAcc × OptState) c,
      ((l.foldl (customCaptainIteration m) p).1.best_captain = some c) →
      c ∈ l ∨ p.1.best_captain = some c := by
    intro l
    induction l with
    | nil =>
        intro p c hc
        exact Or.inr hc
    | cons a l ih =>
        intro p c hc
        rw [List.foldl_cons] at hc
        rcases ih _ c hc with h1 | h1
        · exact Or.inl (List.mem_cons_of_mem _ h1)
        · obtain ⟨acc, st2⟩ := p
          unfold customCaptainIteration at h1
          simp only at h1
          split at h1
          · split at h1
            · injection h1 with h1
              subst h1
              exact Or.inl (List.mem_cons_self _ _)
            · exact Or.inr h1
          · exact Or.inr h1
  simp only [generateLineupWithCaptain] at h
  split at h
  · rename_i L0 c hbl hbc
    injection h with h
    subst h
    have hc : (captainFold st m).1.best_captain = some c := hbc
    rcases hmem (captainCandidates st) _ c hc with h1 | h1
    · have h2 := List.mem_filter.1 h1
      refine ⟨c, h2.1, ?_, rfl, rfl⟩
      have := h2.2
      rw [bne_iff_ne] at this
      exact this
    · exact absurd h1 (by simp)
  · exact absurd (hnocap L h) hcap
  · exact absurd (hnocap L h) hcap

/-- Witness for C4 on `stdState`. -/
theorem captain_bonus_is_original_points_witness :
    ∃ c, c ∈ stdState.players ∧ c.position ≠ "DEF"
      ∧ captainLineupW.captain_id = c.id
      ∧ captainLineupW.captain_bonus_points = c.projected_points := by
  have h : generateLineupWithCaptain stdState 3 = some captainLineupW := by
    with_unfolding_all rfl
  exact captain_bonus_is_original_points stdState 3 captainLineupW h
    (by with_unfolding_all decide)

/-- C3 (the code, evaluated at a concrete pool, contradicts the claimed
total): on `stdState` the captain controller selects `p1` (the QB) as
captain and stores its doubled points inside the returned players, so
the final `projected_points` (112) counts the captain's base points a
third time — the claimed value, the sum of the selected candidates'
original undoubled points plus the bonus, is 96. -/
theorem captain_total_double_counts_bonus :
    ((generateLineupWithCaptain stdState 3).map
      (fun L => (L.projected_points, basePoints stdState L.players + L.captain_bonus_points)))
      = some (112, 96)
    ∧ (112 : ℚ) ≠ 96 := by
  constructor
  · with_unfolding_all rfl
  · with_unfolding_all decide

/-- C10: every non-DEF candidate of the pool — locked or not — is
enumerated as a captain candidate, and on the fully locked pool
`lockedState` the returned captain is the locked candidate `L1`. -/
theorem locked_candidates_are_captain_eligible :
    (∀ st p, p ∈ st.players → p.position ≠ "DEF" → p ∈ captainCandidates st)
    ∧ (generateLineupWithCaptain lockedState 3).map (fun L => L.captain_id) = some "L1"
    ∧ (lockedState.players.find? (fun p => p.id == "L1")).map (fun p => p.is_locked)
        = some true := by
  refine ⟨?_, ?_, ?_⟩
  · intro st p hp hpos
    exact List.mem_filter.2 ⟨hp, bne_iff_ne.2 hpos⟩
  · with_unfolding_all rfl
  · with_unfolding_all rfl

/-- Witness for C10: the locked candidate `lockA` (= `L1`) is a captain
candidate of `lockedState`. -/
theorem locked_candidates_are_captain_eligible_witness :
    lockA ∈ captainCandidates lockedState :=
  locked_candidates_are_captain_eligible.1 lockedState lockA
    (by with_unfolding_all decide) (by decide)

/-- Setting a list entry back to the value it already holds is the
identity. -/
theorem set_of_get?_eq {α : Type} : ∀ (l : List α) (i : Nat) (a : α),
    l.get? i = some a → l.set i a = l := by
  intro l
  induction l with
  | nil =>
      intro i a h
      simp at h
  | cons b l ih =>
      intro i a h
      cases i with
      | zero =>
          simp only [List.get?] at h
          injection h with h
          simp [h]
      | succ i =>
          simp only [List.get?] at h
          simp [List.set, ih i a h]

/-- C7 (amended): in the custom optimizer every captain sub-solve leaves
the optimizer state — in particular the shared candidate pool with its
projected points — exactly as it was, both after each iteration and
after the whole loop; in the pydfs optimizer the in-place doubling is
reverted by the `finally`, so the pool is restored after every sub-solve
and after the whole loop.  (The doubling itself is applied to a fresh
copy in the custom optimizer but to the shared pool in the pydfs
optimizer; see the counterexample.) -/
theorem captain_subsolve_restores_pool :
    (∀ m acc st c, (customCaptainIteration m (acc, st) c).2 = st)
    ∧ (∀ st m, (captainFold st m).2 = st)
    ∧ (∀ solve pool i captain, pool.get? i = some captain →
        (pydfsStep solve pool i).2 = pool)
    ∧ (∀ solve pool, (pydfsLoop solve pool).2 = pool) := by
  have h1 : ∀ m acc st c, (customCaptainIteration m (acc, st) c).2 = st := by
    intro m acc st c
    rfl
  have h3 : ∀ solve pool i captain, pool.get? i = some captain →
      (pydfsStep solve pool i).2 = pool := by
    intro solve pool i captain h
    simp only [pydfsStep, pydfsPoolDuringSolve, h]
    rw [List.set_set]
    exact set_of_get?_eq pool i captain h
  refine ⟨h1, ?_, h3, ?_⟩
  · intro st m
    unfold captainFold
    generalize (⟨none, 0, none⟩ : BestAcc) = acc0
    have key : ∀ (l : List CFLPlayer) (p : BestAcc × OptState),
        ((l.foldl (customCaptainIteration m) p).2 = p.2) := by
      intro l
      induction l with
      | nil =>
          intro p
          rfl
      | cons a l ih =>
          intro p
          rw [List.foldl_cons]
          rw [ih]
          exact h1 m p.1 p.2 a
    exact key (captainCandidates st) (acc0, st)
  · intro solve pool
    unfold pydfsLoop
    have hidx : ∀ i ∈ pydfsCandidateIdxs pool, ∃ cap, pool.get? i = some cap := by
      intro i hi
      have hfil := (List.mem_filter.1 hi).2
      rcases hg : pool.get? i with _ | cap
      · rw [hg] at hfil
        simp at hfil
      · exact ⟨cap, rfl⟩
    have key : ∀ (idxs : List Nat) (b : ℚ × Option Nat),
        (∀ i ∈ idxs, ∃ cap, pool.get? i = some cap) →
        ((idxs.foldl (pydfsLoopStep solve) (b, pool)).2 = pool) := by
      intro idxs
      induction idxs with
      | nil =>
          intro b _
          rfl
      | cons i idxs ih =>
          intro b hall
          rw [List.foldl_cons]
          rcases hall i (List.mem_cons_self _ _) with ⟨cap, hcap⟩
          have h2 : (pydfsLoopStep solve (b, pool) i).2 = pool := by
            show (pydfsStep solve pool i).2 = pool
            exact h3 solve pool i cap hcap
          have hpair : pydfsLoopStep solve (b, pool) i
              = ((pydfsLoopStep solve (b, pool) i).1, pool) := by
            rw [Prod.ext_iff]
            exact ⟨rfl, h2⟩
          rw [hpair]
          exact ih _ (fun j hj => hall j (List.mem_cons_of_mem _ hj))
    exact key (pydfsCandidateIdxs pool) (-1, none) hidx

/-- Witness for C7 (amended) at concrete inputs. -/
theorem captain_subsolve_restores_pool_witness :
    (customCaptainIteration 3 (⟨none, 0, none⟩, stdState) pQB).2 = stdState
    ∧ (pydfsStep (fun _ => none) pdfsPool1 0).2 = pdfsPool1 :=
  ⟨captain_subsolve_restores_pool.1 3 ⟨none, 0, none⟩ stdState pQB,
   captain_subsolve_restores_pool.2.2.1 (fun _ => none) pdfsPool1 0
     { id := "a", positions := ["QB"], fppg := 5 } (by with_unfolding_all rfl)⟩

/-- C7 counterexample: in the pydfs optimizer the doubling is applied to
the shared pool itself, not only to a private copy — between the
in-place `captain.fppg *= 2` and the restoring `finally`, i.e. exactly
while the sub-solve runs, the shared pool differs from its original
value. -/
theorem pydfs_doubles_shared_pool :
    pydfsPoolDuringSolve pdfsPool1 0 ≠ pdfsPool1 := by
  with_unfolding_all decide
